import Mathlib

/-!
Verification development for the `caib` command-line client
(`cmd/caib/main.go`): manifest preprocessing, upload orchestration,
build lifecycle monitoring and artifact retrieval.

The Go code is shallowly embedded: pure helpers become Lean functions,
network calls become oracle functions supplied by an environment record,
and the retry loops (which in Go run against wall-clock deadlines) are
modelled with a fuel parameter counting the iterations that fit before
the deadline elapses.
-/

namespace Caib

/-! ### String helpers modelling Go's `strings` / `path/filepath` functions -/

/-- Does the second character list start with the first one?  Used to model
Go's `strings.HasPrefix` and `strings.Contains`. -/
def listStartsWith : List Char → List Char → Bool
  | [], _ => true
  | _ :: _, [] => false
  | a :: as, b :: bs => a = b && listStartsWith as bs

/-- Does `pat` occur as a contiguous sublist of `s`? -/
def listContains (pat : List Char) : List Char → Bool
  | [] => pat.isEmpty
  | c :: rest => listStartsWith pat (c :: rest) || listContains pat rest

/-- Go's `strings.Contains s pat`. -/
def containsSubstr (s pat : String) : Bool :=
  listContains pat.data s.data

/-- Go's `strings.HasPrefix s pre`. -/
def goStartsWith (s pre : String) : Bool :=
  listStartsWith pre.data s.data

/-- ASCII lower-casing of one character (Go's `strings.ToLower` on the
ASCII range, which covers every string the client matches against). -/
def lowerChar (c : Char) : Char :=
  if 'A' ≤ c && c ≤ 'Z' then Char.ofNat (c.toNat + 32) else c

/-- Go's `strings.ToLower` (ASCII fragment). -/
def goToLower (s : String) : String :=
  ⟨s.data.map lowerChar⟩

/-- ASCII whitespace, for `strings.TrimSpace`. -/
def isSpaceChar (c : Char) : Bool :=
  c = ' ' || c = '\t' || c = '\n' || c = '\r'

/-- Go's `strings.TrimSpace` (ASCII fragment). -/
def goTrimSpace (s : String) : String :=
  ⟨((s.data.dropWhile isSpaceChar).reverse.dropWhile isSpaceChar).reverse⟩

/-- Go's `filepath.IsAbs` on Unix: the path starts with `/`. -/
def isAbs (p : String) : Bool :=
  goStartsWith p "/"

/-! ### Generic YAML document tree

`yaml.Unmarshal` into `map[string]any` produces a generic tree; the
client walks it with type assertions (`.(string)`, `.(map[string]any)`,
`.([]any)`). -/

/-- A parsed YAML value, as the Go client sees it after `yaml.Unmarshal`
into `any`. -/
inductive Yaml where
  | str (s : String)
  | num (n : Int)
  | bool (b : Bool)
  | null
  | list (xs : List Yaml)
  | map (kvs : List (String × Yaml))

/-- Map lookup (`m[k]`); Go maps from YAML have unique keys, so
first-match lookup is faithful. -/
def Yaml.lookup : List (String × Yaml) → String → Option Yaml
  | [], _ => none
  | (k', v) :: rest, k => if k' = k then some v else Yaml.lookup rest k

/-- The Go type assertion `v.(string)`. -/
def Yaml.asString : Yaml → Option String
  | .str s => some s
  | _ => none

/-- The Go type assertion `v.(map[string]any)`. -/
def Yaml.asMap : Yaml → Option (List (String × Yaml))
  | .map kvs => some kvs
  | _ => none

/-- The Go type assertion `v.([]any)`. -/
def Yaml.asList : Yaml → Option (List Yaml)
  | .list xs => some xs
  | _ => none

/-! ### Data model -/

/-- One entry of the `localFiles` list built by `findLocalFileReferences`
(a `map[string]string` with keys `path` and `source_path`). -/
structure LocalFileRef where
  path : String
  source_path : String
deriving DecidableEq, Repr

/-- `buildapiclient.Upload`: one (local source, remote destination) pair. -/
structure Upload where
  sourcePath : String
  destPath : String
deriving DecidableEq, Repr

/-- The status snapshot returned by `GetBuild`: phase and message
(creation time is irrelevant to the client's control flow). -/
structure BuildStatus where
  phase : String
  message : String
deriving DecidableEq, Repr

/-! ### Manifest preprocessor (`findLocalFileReferences`, main.go lines 371-444) -/

/-- The safe-directory allow-list for absolute source paths.  In the
source it is the hardcoded empty slice `safeDirectories := []string{}`
(the `TODO add safe dirs flag` is not implemented). -/
def safeDirectories : List String := []

/-- `isPathSafe` (main.go lines 379-404): reject empty/root paths,
paths containing `..`, and absolute paths outside `safeDirectories`. -/
def isPathSafe (path : String) : Except String Unit :=
  if path = "" ∨ path = "/" then
    .error "empty or root path is not allowed"
  else if containsSubstr path ".." = true then
    .error ("directory traversal detected in path: " ++ path)
  else if isAbs path = true then
    if safeDirectories.any (fun dir => goStartsWith path (dir ++ "/")) = true then
      .ok ()
    else
      .error ("absolute path outside safe directories: " ++ path)
  else
    .ok ()

/-- The two type-asserted field reads of one add-file entry:
`fileMap["path"].(string)` and `fileMap["source_path"].(string)`.
Returns `some (path, source_path)` exactly when the entry is a map and
both assertions succeed (`hasPath && hasSourcePath` in the source). -/
def entryFields : Yaml → Option (String × String)
  | .map kvs =>
    match (Yaml.lookup kvs "path").bind Yaml.asString,
          (Yaml.lookup kvs "source_path").bind Yaml.asString with
    | some p, some sp => some (p, sp)
    | _, _ => none
  | _ => none

/-- `processAddFiles` (main.go lines 406-423): walk the entry list; an
entry without both string fields is skipped; an unsafe source path
aborts with the validation error; accepted entries are collected. -/
def processAddFiles : List Yaml → Except String (List LocalFileRef)
  | [] => .ok []
  | f :: rest =>
    match entryFields f with
    | none => processAddFiles rest
    | some (p, sp) =>
      match isPathSafe sp with
      | .error e => .error e
      | .ok _ =>
        match processAddFiles rest with
        | .error e => .error e
        | .ok l => .ok (⟨p, sp⟩ :: l)

/-- The add-file list under the top-level `content` block
(main.go lines 425-431): present only when both type assertions hold. -/
def contentAddFiles (md : List (String × Yaml)) : Option (List Yaml) :=
  match (Yaml.lookup md "content").bind Yaml.asMap with
  | some content => (Yaml.lookup content "add_files").bind Yaml.asList
  | none => none

/-- The add-file list under the nested `qm.content` block
(main.go lines 433-441). -/
def qmAddFiles (md : List (String × Yaml)) : Option (List Yaml) :=
  match (Yaml.lookup md "qm").bind Yaml.asMap with
  | some qm =>
    match (Yaml.lookup qm "content").bind Yaml.asMap with
    | some qc => (Yaml.lookup qc "add_files").bind Yaml.asList
    | none => none
  | none => none

/-- The body of `findLocalFileReferences` after a successful parse:
process the `content` block, then the `qm.content` block, accumulating
references in order; a missing or ill-typed block contributes nothing. -/
def findRefs (md : List (String × Yaml)) : Except String (List LocalFileRef) :=
  match processAddFiles ((contentAddFiles md).getD []) with
  | .error e => .error e
  | .ok r1 =>
    match processAddFiles ((qmAddFiles md).getD []) with
    | .error e => .error e
    | .ok r2 => .ok (r1 ++ r2)

/-- `findLocalFileReferences` (main.go lines 371-444).  The
`yaml.Unmarshal` call is external; its outcome is the `parse`
argument. -/
def findLocalFileReferences (parse : Except String (List (String × Yaml))) :
    Except String (List LocalFileRef) :=
  match parse with
  | .error e => .error ("failed to parse manifest YAML: " ++ e)
  | .ok md => findRefs md

/-! ### Upload orchestration (`runBuild`, main.go lines 210-260) -/

/-- Wall-clock constants of the readiness wait: a ten-minute deadline
(`context.WithTimeout(ctx, 10*time.Minute)`) polled every three seconds
(`time.Sleep(3 * time.Second)`). -/
def readinessDeadlineMinutes : Nat := 10

/-- Poll interval of the readiness wait, in seconds. -/
def readinessPollSeconds : Nat := 3

/-- Outcome of the readiness-wait loop (main.go lines 220-236). -/
inductive ReadyOutcome where
  | proceed
  | fatalFailed (msg : String)
  | timedOut
deriving DecidableEq, Repr

/-- The readiness-wait loop (main.go lines 220-236): poll `GetBuild`
until `Uploading` (proceed), `Failed` (fatal), or the deadline.  `fuel`
is the number of iterations that fit before the ten-minute `readyCtx`
expires; `poll j` is the result of the `j`-th `GetBuild` call (a
`GetBuild` error is ignored and the loop keeps waiting). -/
def readinessWait (fuel : Nat) (poll : Nat → Except String BuildStatus) (i : Nat) :
    ReadyOutcome :=
  match fuel with
  | 0 => .timedOut
  | fuel' + 1 =>
    match poll i with
    | .ok st =>
      if st.phase = "Uploading" then .proceed
      else if st.phase = "Failed" then .fatalFailed st.message
      else readinessWait fuel' poll (i + 1)
    | .error _ => readinessWait fuel' poll (i + 1)

/-- The upload pairs built at main.go lines 238-241: both `SourcePath`
and `DestPath` are `ref["source_path"]`, verbatim. -/
def mkUploads (refs : List LocalFileRef) : List Upload :=
  refs.map (fun r => { sourcePath := r.source_path, destPath := r.source_path })

/-- Outcome of one `api.UploadFiles` call. -/
inductive UploadAttempt where
  | success
  | failure (msg : String)

/-- The transient-error classification at main.go line 250: the
lower-cased error text contains `503`, `service unavailable`, or
`upload pod not ready`. -/
def isTransientUploadErr (msg : String) : Bool :=
  let lower := goToLower msg
  containsSubstr lower "503" || containsSubstr lower "service unavailable" ||
    containsSubstr lower "upload pod not ready"

/-- Wall-clock constants of the transfer retry loop: a ten-minute
deadline (`uploadDeadline := time.Now().Add(10 * time.Minute)`) with a
five-second sleep between transient retries. -/
def uploadRetryDeadlineMinutes : Nat := 10

/-- Retry interval of the upload-transfer loop, in seconds. -/
def uploadRetrySeconds : Nat := 5

/-- The upload-transfer retry loop (main.go lines 243-258).  `attempt j`
is the outcome of the `j`-th `UploadFiles` call; `fuel` is the number of
retries that fit before `uploadDeadline`.  On failure the deadline is
checked first (past it, any failure is fatal); a transient failure
sleeps and retries; anything else is fatal at once.  Returns the final
outcome together with the number of `UploadFiles` calls made. -/
def uploadRetry (fuel : Nat) (attempt : Nat → UploadAttempt) (i : Nat) :
    Except String Unit × Nat :=
  match attempt i with
  | .success => (.ok (), 1)
  | .failure msg =>
    match fuel with
    | 0 => (.error ("upload files failed: " ++ msg), 1)
    | fuel' + 1 =>
      if isTransientUploadErr msg = true then
        let p := uploadRetry fuel' attempt (i + 1)
        (p.fst, p.snd + 1)
      else
        (.error ("upload files failed: " ++ msg), 1)

/-! ### Artifact retrieval (`downloadArtifactViaAPI`, main.go lines 446-584) -/

/-- Wall-clock constants of the artifact wait: a thirty-minute deadline
(`deadline := time.Now().Add(30 * time.Minute)`) with three-second
sleeps between transient retries. -/
def artifactDeadlineMinutes : Nat := 30

/-- Retry interval of the artifact wait, in seconds. -/
def artifactRetrySeconds : Nat := 3

/-- One HTTP exchange of the artifact loop: a 200 response whose body is
then streamed (`ok`), a transport error from `httpClient.Do`
(`reqError`), or a non-200 status with its body text. -/
inductive HttpResp where
  | ok
  | reqError
  | status (code : Nat) (body : String)

/-- Errors `downloadArtifactViaAPI` can return from its wait loop:
the deadline timeout (`timed out waiting for artifact to become
ready`) or the fatal remote error `HTTP <code>: <trimmed body>`. -/
inductive DownloadErr where
  | timeout
  | http (code : Nat) (body : String)
deriving DecidableEq, Repr

/-- The transient classification at main.go line 574: status 503 or 409,
or the lower-cased trimmed body contains `not ready`. -/
def isTransientArtifact (code : Nat) (body : String) : Bool :=
  code == 503 || code == 409 ||
    containsSubstr (goToLower (goTrimSpace body)) "not ready"

/-- The artifact wait loop of `downloadArtifactViaAPI` (main.go lines
468-583), up to the point where a 200 response is streamed to disk.
`fuel` is the number of requests that fit before the thirty-minute
deadline (checked at the top of each iteration); `resp j` is the `j`-th
HTTP exchange.  Transport errors and transient responses sleep and
retry; any other non-200 response is fatal with the code and trimmed
body. -/
def artifactWait (fuel : Nat) (resp : Nat → HttpResp) (i : Nat) :
    Except DownloadErr Unit :=
  match fuel with
  | 0 => .error .timeout
  | fuel' + 1 =>
    match resp i with
    | .ok => .ok ()
    | .reqError => artifactWait fuel' resp (i + 1)
    | .status code body =>
      if isTransientArtifact code body = true then
        artifactWait fuel' resp (i + 1)
      else
        .error (.http code (goTrimSpace body))

/-- The temporary download path: `tmp := outPath + ".partial"`
(main.go line 503). -/
def tmpPathOf (outPath : String) : String := outPath ++ ".partial"

/-- Which files exist (at the temporary path and at the final path)
after the file-writing part of `downloadArtifactViaAPI` runs. -/
structure ArtifactFs where
  tmpExists : Bool
  finalExists : Bool
deriving DecidableEq, Repr

/-- The three fallible local-file steps of the 200 branch (main.go
lines 502-551): `os.Create(tmp)`, the `io.Copy` of the body stream into
the temporary file (false also models an interrupted/partial stream),
and the final `os.Rename(tmp, outPath)`. -/
structure DlIo where
  createOk : Bool
  copyOk : Bool
  renameOk : Bool
deriving DecidableEq, Repr

/-- Effect of the 200 branch on the two paths (main.go lines 502-551),
starting from neither file existing.  `os.Create` failure returns with
no file made; a copy failure runs `os.Remove(tmp)` and returns; only
after the full stream is consumed is `os.Rename(tmp, outPath)` run, and
a rename failure returns the error with the temporary file still on
disk.  The second component is overall success. -/
def writeArtifactFile (io : DlIo) : ArtifactFs × Bool :=
  if io.createOk = false then (⟨false, false⟩, false)
  else if io.copyOk = false then (⟨false, false⟩, false)
  else if io.renameOk = false then (⟨true, false⟩, false)
  else (⟨false, true⟩, true)

/-! ### Lifecycle monitor (`runBuild`, main.go lines 262-344) -/

/-- Tick interval of the monitor loop: `time.NewTicker(5 * time.Second)`. -/
def monitorTickSeconds : Nat := 5

/-- Terminal outcome of the monitor loop. -/
inductive MonitorOutcome where
  | timedOut
  | completedNoDownload
  | completedDownloadOk
  | completedDownloadFailed (e : DownloadErr)
  | failed (msg : String)
deriving DecidableEq, Repr

/-- The monitor loop (main.go lines 280-343).  Per tick: the log-follow
attempt only prints and never changes the loop's outcome (main.go lines
285-315), so it is not modelled; then `GetBuild` runs — an error is
printed and the loop continues; `Completed` is terminal (invoking the
artifact download when requested, whose result is `dl`); `Failed` is
terminal-fatal; any other phase waits for the next tick.  `fuel` is the
number of ticks before the caller-supplied overall timeout fires. -/
def monitorLoop (fuel : Nat) (poll : Nat → Except String BuildStatus)
    (download : Bool) (dl : Except DownloadErr Unit) (i : Nat) : MonitorOutcome :=
  match fuel with
  | 0 => .timedOut
  | fuel' + 1 =>
    match poll i with
    | .error _ => monitorLoop fuel' poll download dl (i + 1)
    | .ok st =>
      if st.phase = "Completed" then
        if download then
          match dl with
          | .ok _ => .completedDownloadOk
          | .error e => .completedDownloadFailed e
        else .completedNoDownload
      else if st.phase = "Failed" then .failed st.message
      else monitorLoop fuel' poll download dl (i + 1)

/-- Process exit status of the invocation. -/
inductive ExitStatus where
  | zero
  | nonzero
deriving DecidableEq, Repr

/-- Exit status produced by each monitor outcome: `timed out waiting
for build` and `build failed: ...` go through `handleError`
(`os.Exit(1)`), while every `Completed` outcome — including a failed
download, which is only printed (`Download via API failed: ...`,
main.go lines 332-335) — returns normally from `runBuild`, and `main`
exits 0. -/
def exitOfMonitor : MonitorOutcome → ExitStatus
  | .timedOut => .nonzero
  | .failed _ => .nonzero
  | .completedNoDownload => .zero
  | .completedDownloadOk => .zero
  | .completedDownloadFailed _ => .zero

/-! ### The composed `runBuild` flow (main.go lines 121-348) -/

/-- A recorded API interaction of one `runBuild` invocation.  The
`CreateBuild` call carries the manifest text placed in
`BuildRequest.Manifest` (which is `string(manifestBytes)`, main.go line
184); each `UploadFiles` call carries its batch; `fetchArtifact` marks
the hand-off to `downloadArtifactViaAPI`.  Status polls (`GetBuild`)
are read-only and not recorded. -/
inductive NetCall where
  | createBuild (manifestText : String)
  | uploadFiles (uploads : List Upload)
  | fetchArtifact
deriving DecidableEq, Repr

/-- Environment of one `runBuild` invocation: the manifest bytes read
from disk, the outcome of `yaml.Unmarshal` on them, the `os.Stat`
oracle, the remote API's responses, and the relevant flags. -/
structure RunEnv where
  manifestBytes : String
  parse : Except String (List (String × Yaml))
  statExists : String → Bool
  createResult : Except String Unit
  readyFuel : Nat
  readyPoll : Nat → Except String BuildStatus
  upFuel : Nat
  upAttempt : Nat → UploadAttempt
  monFuel : Nat
  monPoll : Nat → Except String BuildStatus
  waitForBuild : Bool
  followLogs : Bool
  download : Bool
  dlResult : Except DownloadErr Unit

/-- The upload section of `runBuild` (main.go lines 210-260), run after
preprocessing succeeded: skipped when there are no references;
otherwise every referenced file must exist (`os.Stat`), then the
readiness wait, then the retrying batch transfer.  Returns the API
calls made and `some fatalMessage` when `handleError` fires. -/
def uploadSection (env : RunEnv) (localRefs : List LocalFileRef) :
    List NetCall × Option String :=
  if localRefs.isEmpty then ([], none)
  else
    match localRefs.find? (fun r => !env.statExists r.source_path) with
    | some r => ([], some ("referenced file " ++ r.source_path ++ " does not exist"))
    | none =>
      match readinessWait env.readyFuel env.readyPoll 0 with
      | .timedOut => ([], some "timed out waiting for upload server to be ready")
      | .fatalFailed m => ([], some ("build failed while waiting for upload server: " ++ m))
      | .proceed =>
        let uploads := mkUploads localRefs
        let p := uploadRetry env.upFuel env.upAttempt 0
        let calls := List.replicate p.snd (NetCall.uploadFiles uploads)
        match p.fst with
        | .error e => (calls, some e)
        | .ok _ => (calls, none)

/-- The monitor section of `runBuild` (main.go lines 262-344), entered
only when `--wait`, `--follow` or `--download` was given. -/
def monitorSection (env : RunEnv) : List NetCall × Option String :=
  if env.waitForBuild || env.followLogs || env.download then
    match monitorLoop env.monFuel env.monPoll env.download env.dlResult 0 with
    | .timedOut => ([], some "timed out waiting for build")
    | .failed m => ([], some ("build failed: " ++ m))
    | .completedNoDownload => ([], none)
    | .completedDownloadOk => ([.fetchArtifact], none)
    | .completedDownloadFailed _ => ([.fetchArtifact], none)
  else ([], none)

/-- The `runBuild` flow from the `CreateBuild` call on (main.go lines
200-345): submit the build (carrying the raw manifest bytes), then run
`findLocalFileReferences` on those same bytes, then the upload section,
then the monitor section.  Returns the recorded API calls in order and
`some message` when the invocation dies through `handleError`
(exit 1), `none` when `runBuild` returns normally (exit 0). -/
def runBuildModel (env : RunEnv) : List NetCall × Option String :=
  let createCall := NetCall.createBuild env.manifestBytes
  match env.createResult with
  | .error e => ([createCall], some e)
  | .ok _ =>
    match findLocalFileReferences env.parse with
    | .error e => ([createCall], some ("manifest file reference error: " ++ e))
    | .ok localRefs =>
      let up := uploadSection env localRefs
      match up.snd with
      | some msg => (createCall :: up.fst, some msg)
      | none =>
        let mon := monitorSection env
        (createCall :: (up.fst ++ mon.fst), mon.snd)

/-- Exit status of a `runBuild` invocation: `handleError` exits 1,
a normal return exits 0. -/
def exitOf (r : List NetCall × Option String) : ExitStatus :=
  match r.snd with
  | some _ => .nonzero
  | none => .zero

/-! ### Helper lemmas about the preprocessor -/

/-- A path containing `..` is rejected by `isPathSafe` with the
traversal message. -/
theorem isPathSafe_traversal (p : String) (h : containsSubstr p ".." = true) :
    isPathSafe p = .error ("directory traversal detected in path: " ++ p) := by
  have h1 : ¬(p = "" ∨ p = "/") := by
    rintro (rfl | rfl) <;> exact absurd h (by decide)
  simp [isPathSafe, h1, h]

/-- With the (empty) default allow-list, every absolute path is rejected
by `isPathSafe`. -/
theorem isPathSafe_abs_error (p : String) (h : isAbs p = true) :
    ∃ e, isPathSafe p = .error e := by
  unfold isPathSafe
  by_cases h1 : p = "" ∨ p = "/"
  · rw [if_pos h1]; exact ⟨_, rfl⟩
  · rw [if_neg h1]
    by_cases h2 : containsSubstr p ".." = true
    · rw [if_pos h2]; exact ⟨_, rfl⟩
    · rw [if_neg h2, if_pos h, if_neg]
      · exact ⟨_, rfl⟩
      · simp [safeDirectories]

/-- Every reference produced by `processAddFiles` carries, verbatim, the
`path`/`source_path` values of some entry of the processed list. -/
theorem processAddFiles_mem_entry (files : List Yaml) (refs : List LocalFileRef)
    (h : processAddFiles files = .ok refs) :
    ∀ r ∈ refs, ∃ f ∈ files, entryFields f = some (r.path, r.source_path) := by
  induction files generalizing refs with
  | nil =>
    simp only [processAddFiles, Except.ok.injEq] at h
    subst h
    intro r hr
    simp at hr
  | cons f rest ih =>
    intro r hr
    rw [processAddFiles] at h
    cases hef : entryFields f with
    | none =>
      simp only [hef] at h
      obtain ⟨g, hg, hgf⟩ := ih refs h r hr
      exact ⟨g, List.mem_cons_of_mem _ hg, hgf⟩
    | some ps =>
      obtain ⟨p, sp⟩ := ps
      simp only [hef] at h
      cases hips : isPathSafe sp with
      | error e => simp only [hips] at h; exact absurd h (by simp)
      | ok u =>
        simp only [hips] at h
        cases hrec : processAddFiles rest with
        | error e => simp only [hrec] at h; exact absurd h (by simp)
        | ok l =>
          simp only [hrec, Except.ok.injEq] at h
          subst h
          rcases List.mem_cons.mp hr with hhead | htail
          · subst hhead
            exact ⟨f, List.mem_cons_self _ _, hef⟩
          · obtain ⟨g, hg, hgf⟩ := ih l hrec r htail
            exact ⟨g, List.mem_cons_of_mem _ hg, hgf⟩

/-- If some entry of the list has both string fields and an unsafe
source path, `processAddFiles` returns a validation error. -/
theorem processAddFiles_error_of_unsafe (files : List Yaml) (f : Yaml)
    (p sp e0 : String)
    (hmem : f ∈ files) (hef : entryFields f = some (p, sp))
    (hbad : isPathSafe sp = .error e0) :
    ∃ e, processAddFiles files = .error e := by
  induction files with
  | nil => simp at hmem
  | cons g rest ih =>
    rcases List.mem_cons.mp hmem with rfl | htail
    · exact ⟨e0, by simp [processAddFiles, hef, hbad]⟩
    · cases heg : entryFields g with
      | none =>
        obtain ⟨e, he⟩ := ih htail
        exact ⟨e, by simp [processAddFiles, heg, he]⟩
      | some ps =>
        obtain ⟨p', sp'⟩ := ps
        cases hips : isPathSafe sp' with
        | error e' => exact ⟨e', by simp [processAddFiles, heg, hips]⟩
        | ok u =>
          obtain ⟨e, he⟩ := ih htail
          exact ⟨e, by simp [processAddFiles, heg, hips, he]⟩

/-- Every reference returned by `findRefs` traces back, verbatim, to an
add-file entry of one of the two recognized blocks. -/
theorem findRefs_mem (md : List (String × Yaml)) (refs : List LocalFileRef)
    (h : findRefs md = .ok refs) :
    ∀ r ∈ refs, ∃ files,
      (contentAddFiles md = some files ∨ qmAddFiles md = some files) ∧
      ∃ f ∈ files, entryFields f = some (r.path, r.source_path) := by
  intro r hr
  rw [findRefs] at h
  cases h1 : processAddFiles ((contentAddFiles md).getD []) with
  | error e => simp only [h1] at h; exact absurd h (by simp)
  | ok r1 =>
    simp only [h1] at h
    cases h2 : processAddFiles ((qmAddFiles md).getD []) with
    | error e => simp only [h2] at h; exact absurd h (by simp)
    | ok r2 =>
      simp only [h2, Except.ok.injEq] at h
      subst h
      rcases List.mem_append.mp hr with hm | hm
      · obtain ⟨f, hf, hff⟩ := processAddFiles_mem_entry _ _ h1 r hm
        cases hc : contentAddFiles md with
        | none => rw [hc] at hf; simp at hf
        | some fs =>
          rw [hc] at hf
          exact ⟨fs, Or.inl rfl, f, hf, hff⟩
      · obtain ⟨f, hf, hff⟩ := processAddFiles_mem_entry _ _ h2 r hm
        cases hq : qmAddFiles md with
        | none => rw [hq] at hf; simp at hf
        | some fs =>
          rw [hq] at hf
          exact ⟨fs, Or.inr rfl, f, hf, hff⟩

/-- A validation error while processing the `content` block's add-file
list is the result of the whole preprocessing step. -/
theorem findRefs_error_content (md : List (String × Yaml)) (files : List Yaml)
    (e : String) (hc : contentAddFiles md = some files)
    (hp : processAddFiles files = .error e) :
    findRefs md = .error e := by
  simp [findRefs, hc, hp]

/-- A validation error while processing either recognized add-file
block (top-level `content` or nested `qm.content`) makes the whole
preprocessing step fail with a validation error. -/
theorem findRefs_error_of_block (md : List (String × Yaml)) (files : List Yaml)
    (e0 : String)
    (hb : contentAddFiles md = some files ∨ qmAddFiles md = some files)
    (hp : processAddFiles files = .error e0) :
    ∃ e, findRefs md = .error e := by
  rcases hb with hc | hq
  · exact ⟨e0, findRefs_error_content md files e0 hc hp⟩
  · cases h1 : processAddFiles ((contentAddFiles md).getD []) with
    | error e1 => exact ⟨e1, by rw [findRefs]; simp [h1]⟩
    | ok r1 => exact ⟨e0, by rw [findRefs]; simp [h1, hq, hp]⟩

/-! ### Helper lemmas about the composed flow and the retry loops -/

/-- The first API interaction of every `runBuild` invocation is the
`CreateBuild` call, and it carries the raw manifest bytes. -/
theorem runBuildModel_head (env : RunEnv) :
    (runBuildModel env).fst.head? = some (.createBuild env.manifestBytes) := by
  cases hc : env.createResult with
  | error e => simp [runBuildModel, hc]
  | ok u =>
    cases hf : findLocalFileReferences env.parse with
    | error e => simp [runBuildModel, hc, hf]
    | ok refs =>
      cases hu : (uploadSection env refs).snd with
      | none => simp [runBuildModel, hc, hf, hu]
      | some m => simp [runBuildModel, hc, hf, hu]

/-- The upload section emits an `UploadFiles` call only after the
readiness wait ended with `proceed`. -/
theorem uploadSection_calls (env : RunEnv) (refs : List LocalFileRef) (c : NetCall)
    (h : c ∈ (uploadSection env refs).fst) :
    readinessWait env.readyFuel env.readyPoll 0 = .proceed := by
  rw [uploadSection] at h
  split at h
  · simp at h
  · split at h
    · simp at h
    · split at h
      · simp at h
      · simp at h
      · assumption

/-- The monitor section never issues an upload call. -/
theorem monitorSection_no_upload (env : RunEnv) (us : List Upload) :
    NetCall.uploadFiles us ∉ (monitorSection env).fst := by
  rw [monitorSection]
  split
  · split <;> simp
  · simp

/-- An `UploadFiles` call appears in a `runBuild` trace only when the
readiness wait ended with `proceed`. -/
theorem runBuildModel_upload_gate (env : RunEnv) (us : List Upload)
    (h : NetCall.uploadFiles us ∈ (runBuildModel env).fst) :
    readinessWait env.readyFuel env.readyPoll 0 = .proceed := by
  cases hc : env.createResult with
  | error e => simp [runBuildModel, hc] at h
  | ok u =>
    cases hf : findLocalFileReferences env.parse with
    | error e => simp [runBuildModel, hc, hf] at h
    | ok refs =>
      cases hu : (uploadSection env refs).snd with
      | some m =>
        simp only [runBuildModel, hc, hf, hu, List.mem_cons] at h
        rcases h with h | h
        · exact absurd h (by simp)
        · exact uploadSection_calls env refs _ h
      | none =>
        simp only [runBuildModel, hc, hf, hu, List.mem_cons, List.mem_append] at h
        rcases h with h | h | h
        · exact absurd h (by simp)
        · exact uploadSection_calls env refs _ h
        · exact absurd h (monitorSection_no_upload env us)

/-- If the readiness wait proceeds, some status poll within the
deadline observed the `Uploading` phase. -/
theorem readinessWait_proceed_observed (fuel : Nat)
    (poll : Nat → Except String BuildStatus) :
    ∀ i, readinessWait fuel poll i = .proceed →
      ∃ j st, i ≤ j ∧ j < i + fuel ∧ poll j = .ok st ∧ st.phase = "Uploading" := by
  induction fuel with
  | zero => intro i h; exact absurd h (by simp [readinessWait])
  | succ fuel ih =>
    intro i h
    rw [readinessWait] at h
    cases hp : poll i with
    | error e =>
      simp only [hp] at h
      obtain ⟨j, st, hij, hjf, hps, hust⟩ := ih (i + 1) h
      exact ⟨j, st, by omega, by omega, hps, hust⟩
    | ok st =>
      simp only [hp] at h
      by_cases hup : st.phase = "Uploading"
      · exact ⟨i, st, le_refl _, by omega, hp, hup⟩
      · rw [if_neg hup] at h
        by_cases hfl : st.phase = "Failed"
        · rw [if_pos hfl] at h; exact absurd h (by simp)
        · rw [if_neg hfl] at h
          obtain ⟨j, st', hij, hjf, hps, hust⟩ := ih (i + 1) h
          exact ⟨j, st', by omega, by omega, hps, hust⟩

/-- Observing the `Failed` phase ends the readiness wait at once with
the fatal outcome carrying the remote message. -/
theorem readinessWait_failed (fuel : Nat) (poll : Nat → Except String BuildStatus)
    (i : Nat) (st : BuildStatus) (hp : poll i = .ok st)
    (hf : st.phase = "Failed") :
    readinessWait (fuel + 1) poll i = .fatalFailed st.message := by
  rw [readinessWait]
  simp only [hp, hf]
  simp

/-- Any poll result other than the `Uploading` or `Failed` phase (a
`GetBuild` error included) keeps the readiness wait going. -/
theorem readinessWait_continue (fuel : Nat) (poll : Nat → Except String BuildStatus)
    (i : Nat)
    (h : ∀ st, poll i = .ok st → st.phase ≠ "Uploading" ∧ st.phase ≠ "Failed") :
    readinessWait (fuel + 1) poll i = readinessWait fuel poll (i + 1) := by
  rw [readinessWait]
  cases hp : poll i with
  | error e => rfl
  | ok st =>
    obtain ⟨h1, h2⟩ := h st hp
    simp [h1, h2]

/-- With every referenced file present on disk, exhausting the
readiness deadline makes the upload section fatal with the timeout
message. -/
theorem uploadSection_timeout (env : RunEnv) (localRefs : List LocalFileRef)
    (hne : localRefs.isEmpty = false)
    (hstat : ∀ r ∈ localRefs, env.statExists r.source_path = true)
    (htw : readinessWait env.readyFuel env.readyPoll 0 = .timedOut) :
    uploadSection env localRefs =
      ([], some "timed out waiting for upload server to be ready") := by
  have hfind : localRefs.find? (fun r => !env.statExists r.source_path) = none := by
    apply List.find?_eq_none.mpr
    intro r hr
    simp [hstat r hr]
  rw [uploadSection]
  simp [hne, hfind, htw]

/-- If the first `k` transfer attempts fail transiently, the deadline
allows at least `k` retries, and attempt `k` succeeds, the upload step
succeeds overall. -/
theorem uploadRetry_success_after_transients :
    ∀ (k fuel : Nat) (attempt : Nat → UploadAttempt) (i : Nat), k ≤ fuel →
      (∀ j, j < k → ∃ m, attempt (i + j) = .failure m ∧ isTransientUploadErr m = true) →
      attempt (i + k) = .success →
      (uploadRetry fuel attempt i).fst = .ok () := by
  intro k
  induction k with
  | zero =>
    intro fuel attempt i _ _ hs
    rw [Nat.add_zero] at hs
    rw [uploadRetry]
    simp [hs]
  | succ k ih =>
    intro fuel attempt i hk htr hs
    obtain ⟨m, hm, hmt⟩ := htr 0 (Nat.succ_pos k)
    rw [Nat.add_zero] at hm
    obtain ⟨fuel', rfl⟩ : ∃ f', fuel = f' + 1 := ⟨fuel - 1, by omega⟩
    rw [uploadRetry]
    simp only [hm, hmt, if_true]
    apply ih fuel' attempt (i + 1) (by omega)
    · intro j hj
      obtain ⟨m', hm', hmt'⟩ := htr (j + 1) (by omega)
      refine ⟨m', ?_, hmt'⟩
      rw [show i + 1 + j = i + (j + 1) by omega]
      exact hm'
    · rw [show i + 1 + k = i + (k + 1) by omega]
      exact hs

/-- A non-transient transfer failure is fatal at once: one single
`UploadFiles` call is made, whatever the remaining deadline budget. -/
theorem uploadRetry_fatal (fuel : Nat) (attempt : Nat → UploadAttempt) (i : Nat)
    (m : String) (hm : attempt i = .failure m)
    (hnt : isTransientUploadErr m = false) :
    uploadRetry fuel attempt i = (.error ("upload files failed: " ++ m), 1) := by
  cases fuel with
  | zero => rw [uploadRetry]; simp [hm]
  | succ fuel' => rw [uploadRetry]; simp [hm, hnt]

/-- If every transfer attempt fails transiently, the deadline is
eventually exhausted and the step is fatal with the wrapped transfer
error. -/
theorem uploadRetry_all_transient (attempt : Nat → UploadAttempt)
    (h : ∀ j, ∃ m, attempt j = .failure m ∧ isTransientUploadErr m = true) :
    ∀ fuel i, ∃ m', (uploadRetry fuel attempt i).fst =
      .error ("upload files failed: " ++ m') := by
  intro fuel
  induction fuel with
  | zero =>
    intro i
    obtain ⟨m, hm, _⟩ := h i
    exact ⟨m, by rw [uploadRetry]; simp [hm]⟩
  | succ fuel' ih =>
    intro i
    obtain ⟨m, hm, hmt⟩ := h i
    obtain ⟨m', hm'⟩ := ih (i + 1)
    exact ⟨m', by rw [uploadRetry]; simp [hm, hmt, hm']⟩

/-- A transient artifact response (503, 409, or a "not ready" body) is
retried: the wait continues with the next exchange. -/
theorem artifactWait_transient (fuel : Nat) (resp : Nat → HttpResp) (i : Nat)
    (code : Nat) (body : String) (hr : resp i = .status code body)
    (ht : isTransientArtifact code body = true) :
    artifactWait (fuel + 1) resp i = artifactWait fuel resp (i + 1) := by
  rw [artifactWait]
  simp [hr, ht]

/-- If every exchange yields a transient response, the artifact wait
ends in the deadline timeout error — not a remote-failure error. -/
theorem artifactWait_all_transient (resp : Nat → HttpResp)
    (h : ∀ j, ∃ code body, resp j = .status code body ∧
      isTransientArtifact code body = true) :
    ∀ fuel i, artifactWait fuel resp i = .error .timeout := by
  intro fuel
  induction fuel with
  | zero => intro i; rfl
  | succ fuel' ih =>
    intro i
    obtain ⟨code, body, hr, ht⟩ := h i
    rw [artifactWait]
    simp [hr, ht, ih (i + 1)]

/-- Any non-transient non-200 response is immediately fatal, surfacing
the status code and the trimmed body text. -/
theorem artifactWait_fatal (fuel : Nat) (resp : Nat → HttpResp) (i : Nat)
    (code : Nat) (body : String) (hr : resp i = .status code body)
    (ht : isTransientArtifact code body = false) :
    artifactWait (fuel + 1) resp i = .error (.http code (goTrimSpace body)) := by
  rw [artifactWait]
  simp [hr, ht]

/-! ### Concrete inputs used by witnesses and counterexamples -/

/-- A concrete add-file entry with a relative `source_path`. -/
def kvsC1 : List (String × Yaml) :=
  [("path", Yaml.str "/etc/app.conf"), ("source_path", Yaml.str "configs/app.conf")]

/-- The concrete parsed manifest holding `kvsC1` under
`content.add_files`. -/
def mdC1 : List (String × Yaml) :=
  [("content", Yaml.map [("add_files", Yaml.list [Yaml.map kvsC1])])]

/-- The manifest text corresponding to `mdC1`. -/
def mC1 : String :=
  "content:\n  add_files:\n    - path: /etc/app.conf\n      source_path: configs/app.conf\n"

/-- A concrete environment for a fully successful build run over
`mC1`/`mdC1`: creation succeeds, the referenced file exists, the build
moves to `Uploading`, the transfer succeeds, the build completes. -/
def envC1 : RunEnv := {
  manifestBytes := mC1
  parse := .ok mdC1
  statExists := fun _ => true
  createResult := .ok ()
  readyFuel := 5
  readyPoll := fun _ => .ok ⟨"Uploading", ""⟩
  upFuel := 5
  upAttempt := fun _ => .success
  monFuel := 5
  monPoll := fun _ => .ok ⟨"Completed", "build finished"⟩
  waitForBuild := true
  followLogs := false
  download := false
  dlResult := .ok () }

/-- A concrete add-file entry whose source path contains `..`. -/
def kvsC2 : List (String × Yaml) :=
  [("path", Yaml.str "/etc/x"), ("source_path", Yaml.str "../secret")]

/-- The concrete parsed manifest holding `kvsC2`. -/
def mdC2 : List (String × Yaml) :=
  [("content", Yaml.map [("add_files", Yaml.list [Yaml.map kvsC2])])]

/-- The manifest text corresponding to `mdC2`. -/
def mC2 : String :=
  "content:\n  add_files:\n    - path: /etc/x\n      source_path: ../secret\n"

/-- Environment whose manifest contains the traversal entry. -/
def envC2 : RunEnv := { envC1 with manifestBytes := mC2, parse := .ok mdC2 }

/-- Environment for a completed build with download requested whose
artifact retrieval fails. -/
def envC3 : RunEnv := { envC1 with
  parse := .ok []
  waitForBuild := false
  download := true
  monPoll := fun _ => .ok ⟨"Completed", "build done"⟩
  dlResult := .error (.http 500 "boom") }

/-! ### The claims -/

/-- C1 counterexample: on a concrete manifest with a relative
`source_path`, preprocessing accepts the entry but records the value
`configs/app.conf` verbatim — it is not rewritten to an absolute path
under a shared-workspace root (`isAbs` is false on it) — and the
`CreateBuild` call submits the user's original manifest bytes, not any
rewritten form. -/
theorem c1_counterexample :
    runBuildModel envC1 =
      ([.createBuild mC1,
        .uploadFiles [{ sourcePath := "configs/app.conf", destPath := "configs/app.conf" }]],
       none) ∧
    findLocalFileReferences envC1.parse =
      .ok [{ path := "/etc/app.conf", source_path := "configs/app.conf" }] ∧
    isAbs "configs/app.conf" = false :=
  ⟨rfl, rfl, rfl⟩

/-- C1 (amended): preprocessing performs no path rewriting — the
manifest text submitted to the API (carried by the first recorded call
of every run) is the user's original manifest bytes unchanged, and
every accepted add-file reference carries the entry's `source_path`
value verbatim. -/
theorem c1_amended_no_rewriting (env : RunEnv) (files : List Yaml)
    (refs : List LocalFileRef) (h : processAddFiles files = .ok refs) :
    (runBuildModel env).fst.head? = some (.createBuild env.manifestBytes) ∧
    ∀ r ∈ refs, ∃ f ∈ files, entryFields f = some (r.path, r.source_path) :=
  ⟨runBuildModel_head env, processAddFiles_mem_entry files refs h⟩

/-- C1 amended witness at the concrete manifest and environment. -/
theorem c1_amended_witness :
    (runBuildModel envC1).fst.head? = some (.createBuild envC1.manifestBytes) :=
  (c1_amended_no_rewriting envC1 [Yaml.map kvsC1]
    [{ path := "/etc/app.conf", source_path := "configs/app.conf" }] rfl).1

/-- C2 counterexample: on a concrete manifest whose add-file entry has
the traversal source path `../secret`, preprocessing does fail with the
validation error, but a network call has been made by the invocation:
the `CreateBuild` submission precedes preprocessing in `runBuild`, so
the recorded trace is non-empty. -/
theorem c2_counterexample :
    runBuildModel envC2 =
      ([.createBuild mC2],
       some "manifest file reference error: directory traversal detected in path: ../secret") ∧
    (runBuildModel envC2).fst ≠ [] :=
  ⟨rfl, by decide⟩

/-- C2 (amended): for every manifest with an add-file entry (with both
string fields, in either the top-level `content` block or the nested
`qm.content` block) whose source path contains a `..` segment,
preprocessing fails with a validation error and the invocation dies
before any upload or artifact call — but after the build-creation
call, which precedes preprocessing. -/
theorem c2_amended_traversal_fatal (env : RunEnv) (md : List (String × Yaml))
    (files : List Yaml) (f : Yaml) (p sp : String)
    (hcr : env.createResult = .ok ())
    (hparse : env.parse = .ok md)
    (hb : contentAddFiles md = some files ∨ qmAddFiles md = some files)
    (hmem : f ∈ files)
    (hef : entryFields f = some (p, sp))
    (hdots : containsSubstr sp ".." = true) :
    ∃ e, runBuildModel env =
      ([.createBuild env.manifestBytes], some ("manifest file reference error: " ++ e)) := by
  have hips := isPathSafe_traversal sp hdots
  obtain ⟨e0, he0⟩ := processAddFiles_error_of_unsafe files f p sp _ hmem hef hips
  obtain ⟨e, hfr⟩ := findRefs_error_of_block md files e0 hb he0
  refine ⟨e, ?_⟩
  simp [runBuildModel, hcr, findLocalFileReferences, hparse, hfr]

/-- The concrete parsed manifest holding the traversal entry only under
the nested `qm.content` block. -/
def mdC2q : List (String × Yaml) :=
  [("qm", Yaml.map [("content", Yaml.map [("add_files", Yaml.list [Yaml.map kvsC2])])])]

/-- The manifest text corresponding to `mdC2q`. -/
def mC2q : String :=
  "qm:\n  content:\n    add_files:\n      - path: /etc/x\n        source_path: ../secret\n"

/-- Environment whose traversal entry sits only under `qm.content`. -/
def envC2q : RunEnv := { envC1 with manifestBytes := mC2q, parse := .ok mdC2q }

/-- C2 amended witness: the traversal manifest is fatal right after the
lone CreateBuild call, both when the entry is in the top-level
`content` block and when it is only in the nested `qm.content`
block. -/
theorem c2_amended_witness :
    (∃ e, runBuildModel envC2 =
      ([.createBuild envC2.manifestBytes], some ("manifest file reference error: " ++ e))) ∧
    (∃ e, runBuildModel envC2q =
      ([.createBuild envC2q.manifestBytes], some ("manifest file reference error: " ++ e))) :=
  ⟨c2_amended_traversal_fatal envC2 mdC2 [Yaml.map kvsC2] (Yaml.map kvsC2)
      "/etc/x" "../secret" rfl rfl (Or.inl rfl) (List.mem_singleton.mpr rfl) rfl (by decide),
   c2_amended_traversal_fatal envC2q mdC2q [Yaml.map kvsC2] (Yaml.map kvsC2)
      "/etc/x" "../secret" rfl rfl (Or.inr rfl) (List.mem_singleton.mpr rfl) rfl (by decide)⟩

/-- C3 counterexample: a concrete invocation in which download was
requested, the build reaches `Completed`, and the artifact retrieval
fails — yet `runBuild` returns normally and the exit status is zero:
the download failure is only printed, refuting the claimed non-zero
exit. -/
theorem c3_counterexample :
    envC3.download = true ∧
    envC3.dlResult = .error (.http 500 "boom") ∧
    runBuildModel envC3 = ([.createBuild envC3.manifestBytes, .fetchArtifact], none) ∧
    exitOf (runBuildModel envC3) = .zero :=
  ⟨rfl, rfl, rfl, rfl⟩

/-- C3 (amended): in the `build` command's monitor, the exit status is
non-zero exactly on a `Failed` phase or on the overall timeout; every
`Completed` outcome exits zero, including the one where the requested
download failed (the failure is reported, not fatal). -/
theorem c3_amended_download_failure_exit_zero
    (fuel : Nat) (poll : Nat → Except String BuildStatus) (download : Bool)
    (dl : Except DownloadErr Unit) (i : Nat) :
    (∀ e, monitorLoop fuel poll download dl i = .completedDownloadFailed e →
      exitOfMonitor (monitorLoop fuel poll download dl i) = .zero) ∧
    (exitOfMonitor (monitorLoop fuel poll download dl i) = .nonzero ↔
      monitorLoop fuel poll download dl i = .timedOut ∨
      ∃ m, monitorLoop fuel poll download dl i = .failed m) := by
  cases h : monitorLoop fuel poll download dl i <;> simp [h, exitOfMonitor]

/-- C3 amended witness: a concrete completed-build monitor run with a
failed download exits zero. -/
theorem c3_amended_witness :
    exitOfMonitor (monitorLoop 1 (fun _ => .ok ⟨"Completed", "build done"⟩) true
      (.error (.http 500 "boom")) 0) = .zero :=
  (c3_amended_download_failure_exit_zero 1 (fun _ => .ok ⟨"Completed", "build done"⟩)
    true (.error (.http 500 "boom")) 0).1 (.http 500 "boom") rfl

/-- C4: with the safe-directory allow-list at its (empty) default,
every absolute source path is rejected by `isPathSafe` with a
validation error, and any add-file entry carrying such a path makes
`processAddFiles` fail with a validation error. -/
theorem c4_absolute_rejected (p : String) (files : List Yaml) (f : Yaml)
    (pth : String) (habs : isAbs p = true) :
    (∃ e, isPathSafe p = .error e) ∧
    (f ∈ files → entryFields f = some (pth, p) →
      ∃ e, processAddFiles files = .error e) := by
  obtain ⟨e0, he0⟩ := isPathSafe_abs_error p habs
  exact ⟨⟨e0, he0⟩,
    fun hmem hef => processAddFiles_error_of_unsafe files f pth p e0 hmem hef he0⟩

/-- A concrete add-file entry with an absolute source path. -/
def kvsC4 : List (String × Yaml) :=
  [("path", Yaml.str "/files/a.conf"), ("source_path", Yaml.str "/etc/passwd")]

/-- C4 witness: the absolute path `/etc/passwd` is rejected, both by
`isPathSafe` and through `processAddFiles`. -/
theorem c4_witness :
    (∃ e, isPathSafe "/etc/passwd" = .error e) ∧
    (∃ e, processAddFiles [Yaml.map kvsC4] = .error e) :=
  ⟨(c4_absolute_rejected "/etc/passwd" [Yaml.map kvsC4] (Yaml.map kvsC4)
      "/files/a.conf" rfl).1,
   (c4_absolute_rejected "/etc/passwd" [Yaml.map kvsC4] (Yaml.map kvsC4)
      "/files/a.conf" rfl).2 (List.mem_singleton.mpr rfl) rfl⟩

/-- C5: an `UploadFiles` call appears in a run's trace only when the
readiness wait ended with `proceed`, and `proceed` is reached only
after some status poll within the deadline observed the `Uploading`
phase; observing `Failed` during the wait is immediately fatal with the
remote message; any other poll result keeps the wait going; exhausting
the ten-minute readiness deadline is fatal with the timeout message. -/
theorem c5_readiness_protocol :
    (∀ env us, NetCall.uploadFiles us ∈ (runBuildModel env).fst →
      readinessWait env.readyFuel env.readyPoll 0 = .proceed) ∧
    (∀ fuel poll i, readinessWait fuel poll i = .proceed →
      ∃ j st, i ≤ j ∧ j < i + fuel ∧ poll j = .ok st ∧ st.phase = "Uploading") ∧
    (∀ fuel poll i st, poll i = .ok st → st.phase = "Failed" →
      readinessWait (fuel + 1) poll i = .fatalFailed st.message) ∧
    (∀ fuel poll i,
      (∀ st, poll i = .ok st → st.phase ≠ "Uploading" ∧ st.phase ≠ "Failed") →
      readinessWait (fuel + 1) poll i = readinessWait fuel poll (i + 1)) ∧
    (∀ env localRefs, localRefs.isEmpty = false →
      (∀ r ∈ localRefs, env.statExists r.source_path = true) →
      readinessWait env.readyFuel env.readyPoll 0 = .timedOut →
      uploadSection env localRefs =
        ([], some "timed out waiting for upload server to be ready")) ∧
    readinessDeadlineMinutes = 10 :=
  ⟨runBuildModel_upload_gate,
   fun fuel poll i => readinessWait_proceed_observed fuel poll i,
   readinessWait_failed,
   readinessWait_continue,
   uploadSection_timeout,
   rfl⟩

/-- C5 witness: the concrete successful run's upload call implies its
readiness wait proceeded, and a concrete `Failed` poll ends the wait
fatally at once. -/
theorem c5_witness :
    readinessWait envC1.readyFuel envC1.readyPoll 0 = .proceed ∧
    readinessWait 4 (fun _ => .ok ⟨"Failed", "pod crashed"⟩) 0 =
      .fatalFailed "pod crashed" :=
  ⟨c5_readiness_protocol.1 envC1
      [{ sourcePath := "configs/app.conf", destPath := "configs/app.conf" }] (by decide),
   c5_readiness_protocol.2.2.1 3 (fun _ => .ok ⟨"Failed", "pod crashed"⟩) 0
      ⟨"Failed", "pod crashed"⟩ rfl rfl⟩

/-- C6: a transient transfer failure (a 503 / service-unavailable /
upload-pod-not-ready signal) is retried until the ten-minute deadline
budget runs out, so transient failures followed by a success within the
budget succeed overall; transient failures persisting past the budget
are fatal; a non-transient failure is fatal immediately after a single
`UploadFiles` call, regardless of the remaining budget. -/
theorem c6_upload_transfer_retry :
    (∀ k fuel attempt i, k ≤ fuel →
      (∀ j, j < k → ∃ m, attempt (i + j) = UploadAttempt.failure m ∧
        isTransientUploadErr m = true) →
      attempt (i + k) = UploadAttempt.success →
      (uploadRetry fuel attempt i).fst = .ok ()) ∧
    (∀ fuel attempt i m, attempt i = UploadAttempt.failure m →
      isTransientUploadErr m = false →
      uploadRetry fuel attempt i = (.error ("upload files failed: " ++ m), 1)) ∧
    (∀ attempt, (∀ j, ∃ m, attempt j = UploadAttempt.failure m ∧
        isTransientUploadErr m = true) →
      ∀ fuel i, ∃ m', (uploadRetry fuel attempt i).fst =
        .error ("upload files failed: " ++ m')) ∧
    uploadRetryDeadlineMinutes = 10 ∧ uploadRetrySeconds = 5 :=
  ⟨uploadRetry_success_after_transients, uploadRetry_fatal,
   uploadRetry_all_transient, rfl, rfl⟩

/-- A transfer oracle failing transiently three times, then
succeeding. -/
def attemptC6 : Nat → UploadAttempt :=
  fun j => if j < 3 then .failure "HTTP 503 Service Unavailable" else .success

/-- C6 witness: three transient failures then a success give overall
success; a non-transient failure is fatal after exactly one call. -/
theorem c6_witness :
    (uploadRetry 10 attemptC6 0).fst = .ok () ∧
    uploadRetry 10 (fun _ => .failure "403 forbidden") 0 =
      (.error ("upload files failed: " ++ "403 forbidden"), 1) :=
  ⟨c6_upload_transfer_retry.1 3 10 attemptC6 0 (by decide)
      (fun j hj => ⟨"HTTP 503 Service Unavailable", by simp [attemptC6, hj], by decide⟩)
      rfl,
   c6_upload_transfer_retry.2.1 10 (fun _ => .failure "403 forbidden") 0 "403 forbidden"
      rfl (by decide)⟩

/-- C7: a 503 or 409 response, or a body whose trimmed lower-cased text
contains "not ready", is classified transient and retried; transient
responses persisting until the thirty-minute deadline end in the
timeout error, not a remote-failure error; any other non-200 response
is immediately fatal surfacing the status code and trimmed body text. -/
theorem c7_artifact_retry :
    (∀ body, isTransientArtifact 503 body = true) ∧
    (∀ body, isTransientArtifact 409 body = true) ∧
    (∀ code body, containsSubstr (goToLower (goTrimSpace body)) "not ready" = true →
      isTransientArtifact code body = true) ∧
    (∀ fuel resp i code body, resp i = HttpResp.status code body →
      isTransientArtifact code body = true →
      artifactWait (fuel + 1) resp i = artifactWait fuel resp (i + 1)) ∧
    (∀ resp, (∀ j, ∃ code body, resp j = HttpResp.status code body ∧
        isTransientArtifact code body = true) →
      ∀ fuel i, artifactWait fuel resp i = .error .timeout) ∧
    (∀ fuel resp i code body, resp i = HttpResp.status code body →
      isTransientArtifact code body = false →
      artifactWait (fuel + 1) resp i = .error (.http code (goTrimSpace body))) ∧
    artifactDeadlineMinutes = 30 ∧ artifactRetrySeconds = 3 :=
  ⟨fun body => by simp [isTransientArtifact],
   fun body => by simp [isTransientArtifact],
   fun code body h => by simp [isTransientArtifact, h],
   artifactWait_transient, artifactWait_all_transient, artifactWait_fatal, rfl, rfl⟩

/-- C7 witness: persistent "not ready" 409 responses end in the timeout
error; a 500 response is immediately fatal with its code and trimmed
body. -/
theorem c7_witness :
    artifactWait 5 (fun _ => .status 409 "artifact not ready") 0 = .error .timeout ∧
    artifactWait 1 (fun _ => .status 500 "  boom ") 0 = .error (.http 500 "boom") :=
  ⟨c7_artifact_retry.2.2.2.2.1 (fun _ => .status 409 "artifact not ready")
      (fun j => ⟨409, "artifact not ready", rfl, by decide⟩) 5 0,
   c7_artifact_retry.2.2.2.2.2.1 0 (fun _ => .status 500 "  boom ") 0 500 "  boom "
      rfl (by decide)⟩

/-- C8 counterexample: when the stream copy completes but the final
rename fails, the downloader returns the error with the temporary
`.partial` file still on disk — the temporary file is left behind on
this failure path, refuting "never left behind". -/
theorem c8_counterexample :
    writeArtifactFile ⟨true, true, false⟩ =
      ({ tmpExists := true, finalExists := false }, false) :=
  rfl

/-- C8 (amended): a file appears at the final path only after the full
stream is consumed and the rename succeeds (so a partial or interrupted
download never leaves a file at the final path); a copy failure removes
the temporary file; the only way the temporary file is left behind is a
failure of the final rename itself. -/
theorem c8_amended_temp_discipline (io : DlIo) :
    ((writeArtifactFile io).fst.finalExists = true →
      io.copyOk = true ∧ io.renameOk = true ∧ (writeArtifactFile io).snd = true) ∧
    (io.copyOk = false → (writeArtifactFile io).fst.tmpExists = false) ∧
    ((writeArtifactFile io).fst.tmpExists = true →
      io.createOk = true ∧ io.copyOk = true ∧ io.renameOk = false) := by
  obtain ⟨c, k, r⟩ := io
  cases c <;> cases k <;> cases r <;> simp [writeArtifactFile]

/-- C8 amended witness: a copy failure leaves no temporary file. -/
theorem c8_amended_witness :
    (writeArtifactFile ⟨true, false, true⟩).fst.tmpExists = false :=
  (c8_amended_temp_discipline ⟨true, false, true⟩).2.1 rfl

/-- C9: every Upload pair built for a preprocessed manifest has its
destination path equal to its source path, and that value is the
verbatim `source_path` string of an add-file entry of the manifest —
no normalization is applied to either side of the pair. -/
theorem c9_upload_pairs_verbatim (md : List (String × Yaml))
    (refs : List LocalFileRef) (u : Upload)
    (hfr : findRefs md = .ok refs) (hu : u ∈ mkUploads refs) :
    u.destPath = u.sourcePath ∧
    ∃ r ∈ refs, u.sourcePath = r.source_path ∧
      ∃ files, (contentAddFiles md = some files ∨ qmAddFiles md = some files) ∧
        ∃ f ∈ files, entryFields f = some (r.path, r.source_path) := by
  simp only [mkUploads] at hu
  obtain ⟨r, hr, hru⟩ := List.mem_map.mp hu
  subst hru
  exact ⟨rfl, r, hr, rfl, findRefs_mem md refs hfr r hr⟩

/-- C9 witness: the concrete manifest's upload pair carries
`configs/app.conf` verbatim on both sides. -/
theorem c9_witness :
    ({ sourcePath := "configs/app.conf", destPath := "configs/app.conf" } : Upload).destPath =
      ({ sourcePath := "configs/app.conf", destPath := "configs/app.conf" } : Upload).sourcePath :=
  (c9_upload_pairs_verbatim mdC1
    [{ path := "/etc/app.conf", source_path := "configs/app.conf" }]
    { sourcePath := "configs/app.conf", destPath := "configs/app.conf" }
    rfl (by decide)).1

/-- C10: an add-file entry lacking a string-valued `source_path` or
`path` (including entries using the `source` key instead, or with
non-string values) is silently skipped: processing the list with the
entry equals processing it without — no validation, no reference, no
error. -/
theorem c10_missing_fields_skipped (kvs : List (String × Yaml)) (rest : List Yaml)
    (h : (Yaml.lookup kvs "path").bind Yaml.asString = none ∨
      (Yaml.lookup kvs "source_path").bind Yaml.asString = none) :
    processAddFiles (Yaml.map kvs :: rest) = processAddFiles rest := by
  have hef : entryFields (Yaml.map kvs) = none := by
    rcases h with h | h
    · simp [entryFields, h]
    · cases hp : (Yaml.lookup kvs "path").bind Yaml.asString <;>
        simp [entryFields, hp, h]
  simp [processAddFiles, hef]

/-- A concrete entry using the `source` key instead of `source_path`,
with a value that would fail path validation. -/
def kvsC10 : List (String × Yaml) :=
  [("path", Yaml.str "/etc/app.conf"), ("source", Yaml.str "../evil")]

/-- C10 witness: the `source`-keyed entry (with an unsafe-looking
value) is skipped with no error and no reference produced. -/
theorem c10_witness :
    processAddFiles [Yaml.map kvsC10] = .ok [] :=
  (c10_missing_fields_skipped kvsC10 [] (Or.inr rfl)).trans rfl

end Caib
